import Mathlib

/-!
Shallow embedding of the kernel-mode-driver abstraction layer of the
ROCR runtime: the `Driver` value types and permission translation from
`core/inc/driver.h`, the duplicate permission translation from
`core/util/memory.h`, and the XDNA driver pieces from
`core/inc/amd_xdna_driver.h` (the `clflush_data` cache-flush helper, the
device-heap constants, and the handle-mapping tables).

Machine integers are modelled as `Nat` with explicit `% 2^64` where the
source relies on `uintptr_t` wraparound.  Addresses are plain naturals.
-/

namespace RocrSpec

/-! ### Platform constants

`PROT_*` come from the Linux `<sys/mman.h>` header and the
`hsa_access_permission_t` enumerators from `inc/hsa.h`; both are external
headers consumed by the sources, with the standard Linux/HSA values. -/

def PROT_NONE : Nat := 0

def PROT_READ : Nat := 1

def PROT_WRITE : Nat := 2

def HSA_ACCESS_PERMISSION_NONE : Nat := 0

def HSA_ACCESS_PERMISSION_RO : Nat := 1

def HSA_ACCESS_PERMISSION_WO : Nat := 2

def HSA_ACCESS_PERMISSION_RW : Nat := 3

/-! ### `core/inc/driver.h`: value types and the `Driver` base class state -/

/-- `Driver::PermissionsToMmapFlags` (core/inc/driver.h, lines 83-96): a
switch over `hsa_access_permission_t`; `HSA_ACCESS_PERMISSION_NONE` and the
`default` label fall through to `PROT_NONE` together.  The argument is a
`Nat` so that values outside the four named enumerators (the `default`
case) are representable. -/
def Driver.PermissionsToMmapFlags (perms : Nat) : Nat :=
  if perms = HSA_ACCESS_PERMISSION_RO then PROT_READ
  else if perms = HSA_ACCESS_PERMISSION_WO then PROT_WRITE
  else if perms = HSA_ACCESS_PERMISSION_RW then PROT_READ ||| PROT_WRITE
  else PROT_NONE

/-- `rocr::PermissionsToMmapFlags` (core/util/memory.h, lines 58-70): the
second, textually independent copy of the same switch. -/
def rocr.PermissionsToMmapFlags (perms : Nat) : Nat :=
  if perms = HSA_ACCESS_PERMISSION_RO then PROT_READ
  else if perms = HSA_ACCESS_PERMISSION_WO then PROT_WRITE
  else if perms = HSA_ACCESS_PERMISSION_RW then PROT_READ ||| PROT_WRITE
  else PROT_NONE

/-- `struct DriverVersionInfo` (core/inc/driver.h): a (major, minor) pair of
`uint32_t`. -/
structure DriverVersionInfo where
  major : Nat
  minor : Nat
deriving DecidableEq

/-- `enum class DriverType` (core/inc/driver.h). -/
inductive DriverType where
  | XDNA
  | KFD
  | NUM_DRIVER_TYPES
deriving DecidableEq

/-- `struct ShareableHandle` (core/inc/driver.h): a `uint64_t` handle whose
in-class initializer `{}` zero-initializes it. -/
structure ShareableHandle where
  handle : Nat := 0
deriving DecidableEq

/-- `ShareableHandle::IsValid` (core/inc/driver.h, line 71):
`return handle != 0;`. -/
def ShareableHandle.IsValid (h : ShareableHandle) : Bool :=
  h.handle != 0

/-- `std::numeric_limits<uint32_t>::max()`. -/
def UINT32_MAX : Nat := 4294967295

/-- The data members of class `Driver` (core/inc/driver.h, lines 197-205),
with their in-class default member initializers: `version_` defaults to the
max-uint32 pair and `fd_` to `-1`. -/
structure Driver where
  kernel_driver_type_ : DriverType
  devnode_name_ : String
  version_ : DriverVersionInfo := ⟨UINT32_MAX, UINT32_MAX⟩
  fd_ : Int := -1

/-- The `Driver(DriverType, std::string)` constructor: it stores the driver
type and devnode name; every other member keeps its in-class default
initializer from the header (`version_{max, max}`, `fd_ = -1`). -/
def Driver.construct (t : DriverType) (name : String) : Driver :=
  { kernel_driver_type_ := t, devnode_name_ := name }

/-- `Driver::Version` (core/inc/driver.h, line 119): `return version_;`. -/
def Driver.Version (d : Driver) : DriverVersionInfo :=
  d.version_

/-! ### `core/inc/amd_xdna_driver.h`: the `clflush_data` helper

The helper walks the cache lines covering `[base+offset, base+offset+len)`:

  cur = (const char*)base + offset;
  lastline = (uintptr_t)(cur + len - 1) | (cacheline_size - 1);
  do { _mm_clflush(cur); cur += cacheline_size; } while (cur <= lastline);

We model a flush as recording the flushed address; the cache line holding
address `a` for line size `L` is line number `a / L`. -/

/-- Wraparound modulus of `uintptr_t` / pointer arithmetic (64-bit). -/
def UINTPTR_MOD : Nat := 2 ^ 64

/-- The do-while loop of `clflush_data`: flush `cur`, advance by `L`,
continue while `cur <= last`.  The body always runs at least once.  The
`0 < L` conjunct in the guard only serves termination: the source
guarantees `cacheline_size > 0` before the loop is reached. -/
def flushList (L cur last : Nat) : List Nat :=
  cur :: (if _h : 0 < L ∧ cur + L ≤ last then flushList L (cur + L) last else [])
termination_by last - cur
decreasing_by omega

/-- `clflush_data` (core/inc/amd_xdna_driver.h, lines 56-75) after the
cache-line size has been discovered: returns the list of addresses passed
to `_mm_clflush`.  `cur + len - 1` is `uintptr_t` arithmetic, hence the
explicit `% 2^64` (adding `2^64 - 1` models subtracting one with
wraparound). -/
def clflush_data (cacheline_size base offset len : Nat) : List Nat :=
  let cur := base + offset
  let lastline := ((cur + len + (UINTPTR_MOD - 1)) % UINTPTR_MOD) ||| (cacheline_size - 1)
  flushList cacheline_size cur lastline

/-- One call of `clflush_data` including the discovery logic around the
static local `cacheline_size` (0 when not yet discovered):

  if (!cacheline_size) {
    long sz = sysconf(_SC_LEVEL1_DCACHE_LINESIZE);
    if (sz <= 0) return;
    cacheline_size = sz;
  }
  ... flush loop ...

The `sysconf` result for this call is an input; the function returns the
new value of the static together with the flushed addresses. -/
def clflushStep (cacheline_size sysconf_result : Int) (base offset len : Nat) :
    Int × List Nat :=
  if cacheline_size = 0 then
    if sysconf_result ≤ 0 then (cacheline_size, [])
    else (sysconf_result, clflush_data sysconf_result.toNat base offset len)
  else (cacheline_size, clflush_data cacheline_size.toNat base offset len)

/-! ### `core/inc/amd_xdna_driver.h`: XDNA device-heap constants -/

/-- `XdnaDriver::dev_heap_size` (core/inc/amd_xdna_driver.h, line 152). -/
def XdnaDriver.dev_heap_size : Nat := 64 * 1024 * 1024

/-- `XdnaDriver::dev_heap_align` (core/inc/amd_xdna_driver.h, line 153). -/
def XdnaDriver.dev_heap_align : Nat := 64 * 1024 * 1024

/-- Modelled from the spec: the body of `XdnaDriver::GetDevHeapByteSize()`
lives in `amd_xdna_driver.cpp`, which is not among the provided sources;
only its declaration (core/inc/amd_xdna_driver.h, line 92) is.  The spec
says it "exposes the fixed device-heap size (64 MiB) as a queryable
constant"; it is a static member, so it reads no instance state. -/
def XdnaDriver.GetDevHeapByteSize : Nat := XdnaDriver.dev_heap_size

/-! ### Device-heap carving (`InitDeviceHeap`) -/

/-- The two address ranges owned by the driver for the device heap: the
OS-chosen parent mapping (`dev_heap_parent`, of `parent_size` bytes) and
the aligned sub-range `dev_heap_aligned` carved out of it
(core/inc/amd_xdna_driver.h, lines 143-153). -/
structure DevHeap where
  dev_heap_parent : Nat
  parent_size : Nat
  dev_heap_aligned : Nat

/-- Rounding an address up to the next multiple of `align`. -/
def alignUp (a align : Nat) : Nat :=
  (a + align - 1) / align * align

/-- Modelled from the spec: the body of `XdnaDriver::InitDeviceHeap` is in
`amd_xdna_driver.cpp`, which is not among the provided sources; only its
declaration (core/inc/amd_xdna_driver.h, line 126) and the member comments
are.  Per the spec it (1) requests an anonymous mapping of
`dev_heap_size + dev_heap_align` bytes as `dev_heap_parent`, at a base
address the OS chooses, and (2) carves out the first address inside the
parent that is a multiple of `dev_heap_align` as `dev_heap_aligned`,
spanning `dev_heap_size` bytes. -/
def InitDeviceHeap (os_base : Nat) : DevHeap :=
  { dev_heap_parent := os_base
  , parent_size := XdnaDriver.dev_heap_size + XdnaDriver.dev_heap_align
  , dev_heap_aligned := alignUp os_base XdnaDriver.dev_heap_align }

/-! ### Handle-mapping tables

`XdnaDriver` owns two logically inverse tables
(core/inc/amd_xdna_driver.h, lines 133-134):

  std::unordered_map<uint32_t, void *> vmem_handle_mappings;
  std::unordered_map<void*, uint32_t> vmem_addr_mappings;

modelled as partial maps `Nat → Option Nat` over handle values and
addresses. -/

/-- The pair of mapping tables of one `XdnaDriver` instance. -/
structure VmemTables where
  vmem_handle_mappings : Nat → Option Nat
  vmem_addr_mappings : Nat → Option Nat

/-- Both tables start empty when the driver instance is constructed. -/
def VmemTables.init : VmemTables :=
  ⟨fun _ => none, fun _ => none⟩

/-- The calls that mutate the tables: `AllocateMemory`, `FreeMemory`,
dma-buf import and shareable-handle release. -/
inductive VmemEvent where
  | allocate (handle addr : Nat)
  | free (addr : Nat)
  | importDmaBuf (handle addr : Nat)
  | releaseHandle (handle : Nat)

/-- Atomic paired insert: a successful allocate/import records the
(handle, address) pair in both tables.  The kernel driver produces a fresh
handle and the mapping a fresh address; an allocation that would collide
with a live entry cannot succeed and changes nothing. -/
def insertPair (s : VmemTables) (h a : Nat) : VmemTables :=
  if s.vmem_handle_mappings h = none ∧ s.vmem_addr_mappings a = none then
    ⟨fun h2 => if h2 = h then some a else s.vmem_handle_mappings h2,
     fun a2 => if a2 = a then some h else s.vmem_addr_mappings a2⟩
  else s

/-- Atomic paired removal of the entry (h, a) from both tables. -/
def erasePair (s : VmemTables) (h a : Nat) : VmemTables :=
  ⟨fun h2 => if h2 = h then none else s.vmem_handle_mappings h2,
   fun a2 => if a2 = a then none else s.vmem_addr_mappings a2⟩

/-- Modelled from the spec: the bodies of `XdnaDriver::AllocateMemory`,
`XdnaDriver::FreeMemory` and the dma-buf import/release paths are in
`amd_xdna_driver.cpp`, which is not among the provided sources; only their
declarations (core/inc/amd_xdna_driver.h, lines 105-109) and the table
members are.  Per the spec, every successful allocate/import inserts one
entry pair atomically, every successful free/release removes the pair it
finds for its address/handle, and a failed call (unknown address or
handle) is reported and changes nothing. -/
def applyVmemEvent (s : VmemTables) (e : VmemEvent) : VmemTables :=
  match e with
  | .allocate h a => insertPair s h a
  | .importDmaBuf h a => insertPair s h a
  | .free a =>
      match s.vmem_addr_mappings a with
      | some h => erasePair s h a
      | none => s
  | .releaseHandle h =>
      match s.vmem_handle_mappings h with
      | some a => erasePair s h a
      | none => s

/-- The tables of one driver instance after a sequence of calls. -/
def runVmemEvents (es : List VmemEvent) : VmemTables :=
  es.foldl applyVmemEvent VmemTables.init

/-- The two tables are exact inverses: handle `h` maps to address `a` in
one table exactly when `a` maps back to `h` in the other.  This is the
bijection invariant: no handle or address appears in only one table, and
each entry has exactly one counterpart. -/
def Inverse (s : VmemTables) : Prop :=
  ∀ h a : Nat, s.vmem_handle_mappings h = some a ↔ s.vmem_addr_mappings a = some h

end RocrSpec

namespace RocrSpec

/-! ## Helper lemmas about the flush loop -/

/-- Closed form of the `| (cacheline_size - 1)` trick for a power-of-two
line size: it rounds the address up to the last byte of its cache line. -/
theorem lor_two_pow_sub_one (a i : Nat) :
    a ||| (2 ^ i - 1) = 2 ^ i * (a / 2 ^ i) + (2 ^ i - 1) := by
  apply Nat.eq_of_testBit_eq
  intro j
  rw [Nat.testBit_or,
    Nat.testBit_mul_pow_two_add _ (Nat.sub_lt (Nat.two_pow_pos i) one_pos) j]
  by_cases hj : j < i
  · simp [Nat.testBit_two_pow_sub_one, hj]
  · simp only [Nat.testBit_two_pow_sub_one, if_neg hj, decide_eq_true_eq]
    rw [← Nat.shiftRight_eq_div_pow, Nat.testBit_shiftRight]
    have : i + (j - i) = j := by omega
    rw [this]
    simp [hj]

/-- The do-while loop flushes exactly the addresses `cur + k * L` for
`k = 0, ..., (last - cur) / L` (just the single address `cur` when
`last < cur`, because the body runs before the first test). -/
theorem flushList_eq_aux (L : Nat) (hL : 0 < L) :
    ∀ n cur last, last - cur ≤ n →
      flushList L cur last =
        (List.range ((last - cur) / L + 1)).map (fun k => cur + k * L) := by
  intro n
  induction n with
  | zero =>
    intro cur last hn
    rw [flushList, dif_neg (by omega)]
    have h0 : (last - cur) / L = 0 := Nat.div_eq_of_lt (by omega)
    rw [h0]
    simp [List.range_succ]
  | succ n ih =>
    intro cur last hn
    rw [flushList]
    by_cases h : cur + L ≤ last
    · rw [dif_pos ⟨hL, h⟩, ih (cur + L) last (by omega)]
      have hM : (last - cur) / L + 1 = ((last - (cur + L)) / L + 1) + 1 := by
        have : last - cur = (last - (cur + L)) + L := by omega
        rw [this, Nat.add_div_right _ hL]
      rw [hM]
      conv_rhs => rw [List.range_succ_eq_map, List.map_cons, List.map_map]
      simp only [Nat.zero_mul, Nat.add_zero]
      congr 1
      apply List.map_congr_left
      intro a _
      simp only [Function.comp_apply, Nat.succ_eq_add_one]
      ring
    · rw [dif_neg (by omega)]
      have h0 : (last - cur) / L = 0 := Nat.div_eq_of_lt (by omega)
      rw [h0]
      simp [List.range_succ]

/-- The do-while loop flushes exactly the addresses `cur + k * L` for
`k = 0, ..., (last - cur) / L` (just the single address `cur` when
`last < cur`, because the body runs before the first test). -/
theorem flushList_eq (L cur last : Nat) (hL : 0 < L) :
    flushList L cur last =
      (List.range ((last - cur) / L + 1)).map (fun k => cur + k * L) :=
  flushList_eq_aux L hL (last - cur) cur last le_rfl

/-- `clflush_data` with a power-of-two line size `2 ^ i`, a length of at
least one byte and no pointer wraparound flushes exactly the addresses
`base + offset + k * 2 ^ i` for `k = 0, ..., lastLine - firstLine`, where
`firstLine` and `lastLine` are the cache-line numbers of the first and
last byte of the range. -/
theorem clflush_data_eq_map (i base offset len : Nat) (hlen : 1 ≤ len)
    (hr : base + offset + len ≤ 2 ^ 64) :
    clflush_data (2 ^ i) base offset len =
      (List.range ((base + offset + len - 1) / 2 ^ i -
          (base + offset) / 2 ^ i + 1)).map
        (fun k => base + offset + k * 2 ^ i) := by
  have hL : 0 < 2 ^ i := Nat.two_pow_pos i
  show flushList (2 ^ i) (base + offset)
      (((base + offset + len + (UINTPTR_MOD - 1)) % UINTPTR_MOD) ||| (2 ^ i - 1)) = _
  have hmod : (base + offset + len + (UINTPTR_MOD - 1)) % UINTPTR_MOD =
      base + offset + len - 1 := by
    unfold UINTPTR_MOD
    omega
  rw [hmod, lor_two_pow_sub_one, flushList_eq _ _ _ hL]
  have hN : 2 ^ i * ((base + offset + len - 1) / 2 ^ i) + (2 ^ i - 1) -
      (base + offset) =
      (2 ^ i - 1 - (base + offset) % 2 ^ i) +
        2 ^ i * ((base + offset + len - 1) / 2 ^ i - (base + offset) / 2 ^ i) := by
    have hdm : 2 ^ i * ((base + offset) / 2 ^ i) + (base + offset) % 2 ^ i =
        base + offset := Nat.div_add_mod _ _
    have hqp : (base + offset) / 2 ^ i ≤ (base + offset + len - 1) / 2 ^ i :=
      Nat.div_le_div_right (by omega)
    have hmul : 2 ^ i * ((base + offset) / 2 ^ i) +
        2 ^ i * ((base + offset + len - 1) / 2 ^ i - (base + offset) / 2 ^ i) =
        2 ^ i * ((base + offset + len - 1) / 2 ^ i) := by
      rw [← Nat.mul_add, Nat.add_sub_cancel' hqp]
    have hrlt : (base + offset) % 2 ^ i < 2 ^ i := Nat.mod_lt _ hL
    generalize 2 ^ i * ((base + offset) / 2 ^ i) = A at hdm hmul
    generalize 2 ^ i * ((base + offset + len - 1) / 2 ^ i -
      (base + offset) / 2 ^ i) = B at hmul
    generalize 2 ^ i * ((base + offset + len - 1) / 2 ^ i) = C at hmul ⊢
    omega
  rw [hN, Nat.add_mul_div_left _ _ hL,
    Nat.div_eq_of_lt (a := 2 ^ i - 1 - (base + offset) % 2 ^ i) (by omega),
    Nat.zero_add]

/-! ## Theorems for the simple value-type claims -/

/-- C2: the permission-to-mmap-protection translation is a total,
deterministic pure function (it is a Lean function, hence total on `Nat`
and deterministic): RO maps to `PROT_READ`, WO to `PROT_WRITE`, RW to
`PROT_READ ||| PROT_WRITE`, and NONE as well as every value other than the
three named read/write enumerators maps to `PROT_NONE`. -/
theorem c2_permissions_to_mmap_flags :
    Driver.PermissionsToMmapFlags HSA_ACCESS_PERMISSION_RO = PROT_READ ∧
    Driver.PermissionsToMmapFlags HSA_ACCESS_PERMISSION_WO = PROT_WRITE ∧
    Driver.PermissionsToMmapFlags HSA_ACCESS_PERMISSION_RW = (PROT_READ ||| PROT_WRITE) ∧
    Driver.PermissionsToMmapFlags HSA_ACCESS_PERMISSION_NONE = PROT_NONE ∧
    ∀ p : Nat, p ≠ HSA_ACCESS_PERMISSION_RO → p ≠ HSA_ACCESS_PERMISSION_WO →
      p ≠ HSA_ACCESS_PERMISSION_RW → Driver.PermissionsToMmapFlags p = PROT_NONE := by
  refine ⟨rfl, rfl, rfl, rfl, ?_⟩
  intro p h1 h2 h3
  simp [Driver.PermissionsToMmapFlags, h1, h2, h3]

/-- Witness for C2 at the concrete unrecognized value 7. -/
theorem c2_permissions_to_mmap_flags_witness :
    Driver.PermissionsToMmapFlags 7 = PROT_NONE :=
  c2_permissions_to_mmap_flags.2.2.2.2 7 (by decide) (by decide) (by decide)

/-- C9: the static member `Driver::PermissionsToMmapFlags` in
`core/inc/driver.h` and the free function `rocr::PermissionsToMmapFlags`
in `core/util/memory.h` are extensionally equal: they return the same
protection flags on every input. -/
theorem c9_permission_translations_agree :
    ∀ p : Nat, Driver.PermissionsToMmapFlags p = rocr.PermissionsToMmapFlags p := by
  intro p
  rfl

/-- C6: `ShareableHandle.IsValid` returns `true` exactly when the handle
value is nonzero, and it is a pure function of the handle (any two handles
with the same `handle` field get the same answer, and the handle itself is
untouched: `IsValid` takes the structure by value and returns a `Bool`). -/
theorem c6_shareable_handle_is_valid :
    ∀ h : ShareableHandle, (h.IsValid = true ↔ h.handle ≠ 0) ∧
      (h.IsValid = false ↔ h.handle = 0) := by
  intro h
  constructor
  · simp [ShareableHandle.IsValid]
  · simp [ShareableHandle.IsValid]

/-- C7: a newly constructed `Driver` (before `Init` touches `version_`)
reports the distinguished "unknown" version: both fields are the maximum
`uint32` value. -/
theorem c7_default_version_is_unknown :
    ∀ (t : DriverType) (name : String),
      (Driver.construct t name).Version = ⟨UINT32_MAX, UINT32_MAX⟩ ∧
      (Driver.construct t name).Version.major = 4294967295 ∧
      (Driver.construct t name).Version.minor = 4294967295 := by
  intro t name
  exact ⟨rfl, rfl, rfl⟩

/-- C8: `XdnaDriver.GetDevHeapByteSize` equals the `dev_heap_size` constant
and the fixed value 64 MiB; it is a static constant, independent of any
instance state. -/
theorem c8_get_dev_heap_byte_size :
    XdnaDriver.GetDevHeapByteSize = XdnaDriver.dev_heap_size ∧
    XdnaDriver.GetDevHeapByteSize = 64 * 1024 * 1024 :=
  ⟨rfl, rfl⟩

/-! ## Theorems about the flush loop claims -/

/-- C1: once the cache-line size `2 ^ i` has been discovered, `clflush_data`
flushes exactly the cache lines overlapping `[base+offset, base+offset+len)`
for every `len ≥ 1`: line `m` is flushed iff it lies between the line
containing the first byte and the line containing the last byte, inclusive,
whether or not `len` is a multiple of the line size and including
`len = 1`.  The range is assumed not to wrap the 64-bit address space. -/
theorem c1_clflush_covers_all_overlapping_lines (i base offset len : Nat)
    (hlen : 1 ≤ len) (hr : base + offset + len ≤ 2 ^ 64) :
    ∀ m : Nat,
      m ∈ (clflush_data (2 ^ i) base offset len).map (fun x => x / 2 ^ i) ↔
      ((base + offset) / 2 ^ i ≤ m ∧ m ≤ (base + offset + len - 1) / 2 ^ i) := by
  intro m
  have hL : 0 < 2 ^ i := Nat.two_pow_pos i
  rw [clflush_data_eq_map i base offset len hlen hr]
  simp only [List.map_map, List.mem_map, List.mem_range, Function.comp_apply]
  have hdiv : ∀ k : Nat,
      (base + offset + k * 2 ^ i) / 2 ^ i = (base + offset) / 2 ^ i + k := by
    intro k
    rw [Nat.mul_comm, Nat.add_mul_div_left _ _ hL]
  have hqp : (base + offset) / 2 ^ i ≤ (base + offset + len - 1) / 2 ^ i :=
    Nat.div_le_div_right (by omega)
  constructor
  · rintro ⟨k, hk, rfl⟩
    rw [hdiv]
    generalize (base + offset) / 2 ^ i = q at hqp hk ⊢
    generalize (base + offset + len - 1) / 2 ^ i = p at hqp hk ⊢
    omega
  · rintro ⟨h1, h2⟩
    refine ⟨m - (base + offset) / 2 ^ i, ?_, ?_⟩
    · generalize (base + offset) / 2 ^ i = q at h1 h2 hqp ⊢
      generalize (base + offset + len - 1) / 2 ^ i = p at h1 h2 hqp ⊢
      omega
    · rw [hdiv]
      generalize (base + offset) / 2 ^ i = q at h1 h2 hqp ⊢
      omega

/-- Witness for C1 at line size 64 = 2^6, base 4096, offset 8, len 1. -/
theorem c1_clflush_covers_all_overlapping_lines_witness :
    64 ∈ (clflush_data (2 ^ 6) 4096 8 1).map (fun x => x / 2 ^ 6) ↔
      ((4096 + 8) / 2 ^ 6 ≤ 64 ∧ 64 ≤ (4096 + 8 + 1 - 1) / 2 ^ 6) :=
  c1_clflush_covers_all_overlapping_lines 6 4096 8 1 (by norm_num) (by norm_num) 64

/-- C10 counterexample: at a line-aligned `base + offset` (4096, with line
size 64 = 2^6) a zero-length call flushes the cache line containing
`base + offset` (line 64) — it does not flush the line immediately before
it (line 63), contrary to the claim's description of the aligned case.
`lastline` does land in the previous line, but the flush instruction
targets `cur` itself. -/
theorem c10_aligned_case_counterexample :
    4096 % 2 ^ 6 = 0 ∧
    (clflush_data (2 ^ 6) 4096 0 0).map (fun x => x / 2 ^ 6) = [64] ∧
    63 ∉ (clflush_data (2 ^ 6) 4096 0 0).map (fun x => x / 2 ^ 6) := by
  have hlist : clflush_data (2 ^ 6) 4096 0 0 = [4096] := by
    show flushList (2 ^ 6) (4096 + 0)
        (((4096 + 0 + 0 + (UINTPTR_MOD - 1)) % UINTPTR_MOD) ||| (2 ^ 6 - 1)) = _
    have hmod : (4096 + 0 + 0 + (UINTPTR_MOD - 1)) % UINTPTR_MOD = 4095 := by
      unfold UINTPTR_MOD
      norm_num
    rw [hmod]
    have hlor : (4095 : Nat) ||| (2 ^ 6 - 1) = 4095 := by decide
    rw [hlor, flushList_eq _ _ _ (by norm_num)]
    norm_num [List.range_succ]
  rw [hlist]
  norm_num

/-- C10 (amended): with a discovered (power-of-two) cache-line size, a
zero-length call is not a no-op: the do-while body runs exactly once, so
the single address `base + offset` is flushed — hence at least one cache
line, namely the one containing `base + offset` (whether or not
`base + offset` is line-aligned), is still flushed.  `cur + len - 1` wraps
to the byte before `base + offset`, so we require `base + offset ≥ 1` (a
valid pointer). -/
theorem c10_zero_length_still_flushes (i base offset : Nat)
    (h1 : 1 ≤ base + offset) (h2 : base + offset ≤ 2 ^ 64) :
    clflush_data (2 ^ i) base offset 0 = [base + offset] := by
  have hL : 0 < 2 ^ i := Nat.two_pow_pos i
  show flushList (2 ^ i) (base + offset)
      (((base + offset + 0 + (UINTPTR_MOD - 1)) % UINTPTR_MOD) ||| (2 ^ i - 1)) = _
  have hmod : (base + offset + 0 + (UINTPTR_MOD - 1)) % UINTPTR_MOD =
      base + offset - 1 := by
    unfold UINTPTR_MOD
    omega
  rw [hmod, lor_two_pow_sub_one, flushList_eq _ _ _ hL]
  have hml : 2 ^ i * ((base + offset - 1) / 2 ^ i) ≤ base + offset - 1 :=
    Nat.mul_div_le _ _
  have h0 : (2 ^ i * ((base + offset - 1) / 2 ^ i) + (2 ^ i - 1) -
      (base + offset)) / 2 ^ i = 0 := by
    apply Nat.div_eq_of_lt
    generalize 2 ^ i * ((base + offset - 1) / 2 ^ i) = A at hml ⊢
    omega
  rw [h0]
  simp [List.range_succ]

/-- Witness for C10 at line size 64 = 2^6, base 4096, offset 0. -/
theorem c10_zero_length_still_flushes_witness :
    clflush_data (2 ^ 6) 4096 0 0 = [4096 + 0] :=
  c10_zero_length_still_flushes 6 4096 0 (by norm_num) (by norm_num)

/-- C5 counterexample: the discovery failure is not latched.  Starting from
the undiscovered state (static `cacheline_size = 0`), a call during which
`sysconf` fails returns without flushing and leaves the static at 0; but a
later call retries the discovery, and if `sysconf` then returns 64 that
call flushes — so it is false that, once discovery has failed, every call
thereafter is a degraded no-op (and discovery is attempted more than
once). -/
theorem c5_failure_not_latched_counterexample :
    clflushStep 0 (-1) 4096 0 1 = (0, []) ∧
    (clflushStep 0 64 4096 0 1).2 = [4096] := by
  constructor
  · rfl
  · show clflush_data 64 4096 0 1 = [4096]
    have h64 : (64 : Nat) = 2 ^ 6 := by norm_num
    rw [h64, clflush_data_eq_map 6 4096 0 1 (by norm_num) (by norm_num)]
    norm_num [List.range_succ]

/-- C5 (amended): `clflush_data` re-attempts cache-line-size discovery on
every call until one succeeds.  Once the static `cacheline_size` is set
(nonzero), it is cached for the process lifetime: later calls ignore
`sysconf` entirely and flush with the cached size.  A call whose discovery
attempt fails (`sysconf` non-positive) is a degraded no-op — it returns
without flushing and without crashing, leaving the static at 0 — but the
failure is not latched: a subsequent call may succeed and flush. -/
theorem c5_amended_discovery_behaviour (st r : Int) (base offset len : Nat) :
    (st ≠ 0 → clflushStep st r base offset len =
      (st, clflush_data st.toNat base offset len)) ∧
    (st = 0 → r ≤ 0 → clflushStep st r base offset len = (0, [])) := by
  constructor
  · intro h
    simp [clflushStep, h]
  · intro h hr
    subst h
    simp [clflushStep, hr]

/-- Witness for the amended C5: a cached size of 64 is used unchanged and
`sysconf` is not consulted; a failing discovery from the unset state is a
no-op. -/
theorem c5_amended_discovery_behaviour_witness :
    clflushStep 64 (-1) 4096 0 1 = (64, clflush_data (Int.toNat 64) 4096 0 1) ∧
    clflushStep 0 (-1) 4096 0 1 = (0, []) :=
  ⟨(c5_amended_discovery_behaviour 64 (-1) 4096 0 1).1 (by decide),
   (c5_amended_discovery_behaviour 0 (-1) 4096 0 1).2 rfl (by decide)⟩

/-! ## Theorems about the spec-modelled driver state -/

/-- C4: after `InitDeviceHeap`, the aligned device heap starts at a
multiple of 64 MiB (`dev_heap_align`), spans exactly
`dev_heap_size = 64 MiB` bytes, and lies fully inside the parent mapping,
for every base address the OS may have chosen for the parent. -/
theorem c4_device_heap_invariant :
    ∀ os_base : Nat,
      (InitDeviceHeap os_base).dev_heap_aligned % XdnaDriver.dev_heap_align = 0 ∧
      (InitDeviceHeap os_base).dev_heap_parent ≤
        (InitDeviceHeap os_base).dev_heap_aligned ∧
      (InitDeviceHeap os_base).dev_heap_aligned + XdnaDriver.dev_heap_size ≤
        (InitDeviceHeap os_base).dev_heap_parent +
          (InitDeviceHeap os_base).parent_size ∧
      XdnaDriver.dev_heap_size = 64 * 1024 * 1024 := by
  intro b
  refine ⟨?_, ?_, ?_, rfl⟩
  · show alignUp b XdnaDriver.dev_heap_align % XdnaDriver.dev_heap_align = 0
    unfold alignUp XdnaDriver.dev_heap_align
    exact Nat.mul_mod_left _ _
  · show b ≤ alignUp b XdnaDriver.dev_heap_align
    unfold alignUp XdnaDriver.dev_heap_align
    omega
  · show alignUp b XdnaDriver.dev_heap_align + XdnaDriver.dev_heap_size ≤
      b + (XdnaDriver.dev_heap_size + XdnaDriver.dev_heap_align)
    unfold alignUp XdnaDriver.dev_heap_align XdnaDriver.dev_heap_size
    omega

/-- The empty tables are trivially inverse. -/
theorem inverse_init : Inverse VmemTables.init := by
  intro h a
  simp [VmemTables.init]

/-- A paired insert preserves the inverse-tables invariant. -/
theorem insertPair_preserves {s : VmemTables} (hs : Inverse s) (h a : Nat) :
    Inverse (insertPair s h a) := by
  unfold insertPair
  by_cases hc : s.vmem_handle_mappings h = none ∧ s.vmem_addr_mappings a = none
  · rw [if_pos hc]
    intro h2 a2
    dsimp only
    by_cases hh : h2 = h
    · subst hh
      by_cases ha : a2 = a
      · subst ha
        simp
      · rw [if_pos rfl, if_neg ha]
        constructor
        · intro heq
          exact absurd (Option.some.inj heq).symm ha
        · intro hR
          have hx := (hs h2 a2).mpr hR
          rw [hc.1] at hx
          cases hx
    · by_cases ha : a2 = a
      · subst ha
        rw [if_neg hh, if_pos rfl]
        constructor
        · intro hL
          have hx := (hs h2 a2).mp hL
          rw [hc.2] at hx
          cases hx
        · intro hR
          exact absurd (Option.some.inj hR).symm hh
      · rw [if_neg hh, if_neg ha]
        exact hs h2 a2
  · rw [if_neg hc]
    exact hs

/-- A paired erase of an entry that is present in both tables preserves the
inverse-tables invariant. -/
theorem erasePair_preserves {s : VmemTables} (hs : Inverse s) (h a : Nat)
    (hm : s.vmem_addr_mappings a = some h) :
    Inverse (erasePair s h a) := by
  have hm2 : s.vmem_handle_mappings h = some a := (hs h a).mpr hm
  intro h2 a2
  dsimp only [erasePair]
  by_cases hh : h2 = h
  · subst hh
    rw [if_pos rfl]
    by_cases ha : a2 = a
    · subst ha
      rw [if_pos rfl]
      simp
    · rw [if_neg ha]
      constructor
      · intro hL
        cases hL
      · intro hR
        have hx := (hs h2 a2).mpr hR
        rw [hm2] at hx
        exact absurd (Option.some.inj hx).symm ha
  · rw [if_neg hh]
    by_cases ha : a2 = a
    · subst ha
      rw [if_pos rfl]
      constructor
      · intro hL
        have hx := (hs h2 a2).mp hL
        rw [hm] at hx
        exact absurd (Option.some.inj hx).symm hh
      · intro hR
        cases hR
    · rw [if_neg ha]
      exact hs h2 a2

/-- Every single table-mutating call preserves the invariant. -/
theorem applyVmemEvent_preserves {s : VmemTables} (hs : Inverse s)
    (e : VmemEvent) : Inverse (applyVmemEvent s e) := by
  cases e with
  | allocate h a =>
    exact insertPair_preserves hs h a
  | importDmaBuf h a =>
    exact insertPair_preserves hs h a
  | free a =>
    dsimp only [applyVmemEvent]
    cases hm : s.vmem_addr_mappings a with
    | none => exact hs
    | some h => exact erasePair_preserves hs h a hm
  | releaseHandle h =>
    dsimp only [applyVmemEvent]
    cases hm : s.vmem_handle_mappings h with
    | none => exact hs
    | some a => exact erasePair_preserves hs h a ((hs h a).mp hm)

/-- The invariant holds along any fold of events. -/
theorem foldl_applyVmemEvent_preserves :
    ∀ (es : List VmemEvent) (s : VmemTables), Inverse s →
      Inverse (es.foldl applyVmemEvent s) := by
  intro es
  induction es with
  | nil =>
    intro s hs
    exact hs
  | cons e es ih =>
    intro s hs
    exact ih _ (applyVmemEvent_preserves hs e)

/-- C3: after every sequence of allocate/free (and import/release) calls on
one driver instance, the handle-to-address and address-to-handle tables are
exact inverses of each other: handle `h` maps to address `a` exactly when
`a` maps back to `h`, so no handle or address appears in only one table and
each entry has exactly one counterpart.  (Since the invariant holds after
every sequence, it in particular holds after every call of a longer
sequence.) -/
theorem c3_vmem_tables_are_inverse_bijection :
    ∀ es : List VmemEvent, Inverse (runVmemEvents es) := by
  intro es
  exact foldl_applyVmemEvent_preserves es VmemTables.init inverse_init

end RocrSpec
